import Mathlib

/-!
Shallow embedding of the ckb-sdk-rust transaction-construction core:
the UDT transfer / issue builders (`src/tx_builder/udt/mod.rs`), the ACP
transfer builder (`src/tx_builder/acp.rs`) and the script unlockers
(`src/unlock/unlocker.rs`).

Modelling conventions:
  * byte strings are `List Nat`;
  * external library functionality (script hashing, molecule `WitnessArgs`
    parsing, occupied-capacity computation) is passed in as function
    parameters — the claims hold for every choice of those functions;
  * the abstract providers (`CellCollector`, `CellDepResolver`,
    `TransactionDependencyProvider`) are modelled as explicit functions,
    the cell collector carrying its mutable state through an explicit
    state parameter;
  * error payload strings are elided: only the error variant is kept.
-/

namespace CkbSdk

/-- Byte strings (each entry a byte value). -/
abbrev Bytes := List Nat

/-- Little-endian interpretation of a byte string, as in
`u128::from_le_bytes` (applied to the first 16 bytes of cell data). -/
def fromLeBytes : Bytes → Nat
  | [] => 0
  | b :: rest => b + 256 * fromLeBytes rest

/-- The 16-byte little-endian encoding of a number, as in
`u128::to_le_bytes`. -/
def toLeBytes16 (n : Nat) : Bytes :=
  (List.range 16).map (fun i => n / 256 ^ i % 256)

/-- On-chain script: `(code_hash, hash_type, args)`. -/
structure Script where
  codeHash : Bytes
  hashType : Nat
  args : Bytes
  deriving DecidableEq, Repr

/-- Script identity `(code_hash, hash_type)` used as registry key. -/
structure ScriptId where
  codeHash : Bytes
  hashType : Nat
  deriving DecidableEq, Repr

/-- `ScriptId::from(&Script)`. -/
def ScriptId.ofScript (s : Script) : ScriptId :=
  ⟨s.codeHash, s.hashType⟩

/-- Reference to a cell by `(tx_hash, index)`. -/
structure OutPoint where
  txHash : Bytes
  index : Nat
  deriving DecidableEq, Repr

/-- A cell output `(capacity, lock, type_)`. -/
structure CellOutput where
  capacity : Nat
  lock : Script
  typeScript : Option Script
  deriving DecidableEq, Repr

/-- A transaction input `(previous_output, since)`. -/
structure CellInput where
  previousOutput : OutPoint
  since : Nat
  deriving DecidableEq, Repr

/-- A cell dependency; its content is opaque to the builders, only identity
matters (they are collected into a `HashSet`). -/
structure CellDep where
  depId : Nat
  deriving DecidableEq, Repr

/-- A live cell as returned by the cell collector. -/
structure LiveCell where
  outPoint : OutPoint
  output : CellOutput
  outputData : Bytes
  blockNumber : Nat
  txIndex : Nat
  deriving DecidableEq, Repr

/-- View of a transaction: the parts the modelled code reads or builds. -/
structure Tx where
  cellDeps : List CellDep
  inputs : List CellInput
  outputs : List CellOutput
  outputsData : List Bytes
  witnesses : List Bytes
  deriving DecidableEq, Repr

/-- A script group: the group's script and the indices of the inputs and
outputs locked/typed by it. -/
structure ScriptGroup where
  script : Script
  inputIndices : List Nat
  outputIndices : List Nat
  deriving DecidableEq, Repr

/-- Molecule `WitnessArgs`: three optional byte strings. The molecule
decoder itself is external, modelled as a parameter of type
`Bytes → Option WitnessArgs`. -/
structure WitnessArgs where
  lock : Option Bytes
  inputType : Option Bytes
  outputType : Option Bytes
  deriving DecidableEq, Repr

/-- `ValueRangeOption` constructors used by the builders. -/
inductive ValueRangeOption where
  | newMin (n : Nat)
  | newExact (n : Nat)
  deriving DecidableEq, Repr

/-- The cell-query fields set by the modelled builders. -/
structure CellQueryOptions where
  primaryScript : Script
  secondaryScript : Option Script
  dataLenRange : Option ValueRangeOption
  deriving DecidableEq, Repr

/-- `CellQueryOptions::new_lock`. -/
def CellQueryOptions.newLock (lock : Script) : CellQueryOptions :=
  ⟨lock, none, none⟩

/-- `TxBuilderError` (payload strings elided; the `ScriptId` payload of
`ResolveCellDepFailed` is kept). -/
inductive TxBuilderError where
  | resolveCellDepFailed (scriptId : ScriptId)
  | other
  deriving DecidableEq, Repr

/-- `UnlockError` (payload strings elided). -/
inductive UnlockError where
  | scriptSigner
  | txDep
  | other
  deriving DecidableEq, Repr

/-- `TransactionDependencyProvider`, restricted to the two methods the
modelled unlockers call; `none` stands for the provider failing with a
`TransactionDependencyError`. -/
structure TxDepProvider where
  getCell : OutPoint → Option CellOutput
  getCellData : OutPoint → Option Bytes

/-- `u64::overflowing_add`. -/
def overflowingAdd64 (a b : Nat) : Nat × Bool :=
  ((a + b) % 2 ^ 64, decide (a + b ≥ 2 ^ 64))

/-- `u128::overflowing_add`. -/
def overflowingAdd128 (a b : Nat) : Nat × Bool :=
  ((a + b) % 2 ^ 128, decide (a + b ≥ 2 ^ 128))

/-! ## Anyone-can-pay unlocker (`AnyoneCanPayUnlocker::is_unlocked`) -/

/-- The `POW10` table from `unlocker.rs`. -/
def POW10 : List Nat :=
  [1, 10, 100, 1000, 10000, 100000, 1000000, 10000000, 100000000,
   1000000000, 10000000000, 100000000000, 1000000000000, 10000000000000,
   100000000000000, 1000000000000000, 10000000000000000,
   100000000000000000, 1000000000000000000, 10000000000000000000]

/-- Parse the minimum ckb amount from the script args (byte 20). -/
def acpMinCkb (args : Bytes) : Except UnlockError Nat :=
  if args.length > 20 then
    let idx := args.getD 20 0
    if idx ≥ 20 then .error .other
    else .ok (POW10.getD idx 0)
  else .ok 0

/-- Parse the minimum udt amount from the script args (byte 21). -/
def acpMinUdt (args : Bytes) : Except UnlockError Nat :=
  if args.length > 21 then
    let idx := args.getD 21 0
    if idx ≥ 39 then .error .other
    else if idx ≥ 20 then .ok (POW10.getD 19 0 * POW10.getD (idx - 19) 0)
    else .ok (POW10.getD idx 0)
  else .ok 0

/-- The `InputWallet` record of `AnyoneCanPayUnlocker::is_unlocked`. -/
structure InputWallet where
  typeHash : Option Bytes
  ckbAmount : Nat
  udtAmount : Nat
  outputCnt : Nat
  deriving DecidableEq, Repr

/-- Build one `InputWallet` from a group input index (lines 189-224 of
`unlocker.rs`); `calcHash` models `Script::calc_script_hash`. -/
def acpBuildInputWallet (calcHash : Script → Bytes) (dep : TxDepProvider)
    (tx : Tx) (idx : Nat) : Except UnlockError InputWallet :=
  match tx.inputs.get? idx with
  | none => .error .other
  | some input =>
    match dep.getCell input.previousOutput with
    | none => .error .txDep
    | some output =>
      match dep.getCellData input.previousOutput with
      | none => .error .txDep
      | some outputData =>
        let typeHash := output.typeScript.map calcHash
        if typeHash.isSome ∧ outputData.length < 16 then .error .other
        else
          .ok ⟨typeHash, output.capacity,
               if typeHash.isSome then fromLeBytes (outputData.take 16) else 0,
               0⟩

/-- Build all input wallets, failing on the first error
(`collect::<Result<Vec<InputWallet>, UnlockError>>()`). -/
def acpBuildWallets (calcHash : Script → Bytes) (dep : TxDepProvider)
    (tx : Tx) : List Nat → Except UnlockError (List InputWallet)
  | [] => .ok []
  | i :: rest =>
    match acpBuildInputWallet calcHash dep tx i with
    | .error e => .error e
    | .ok w =>
      match acpBuildWallets calcHash dep tx rest with
      | .error e => .error e
      | .ok ws => .ok (w :: ws)

/-- Read `(type_hash_opt, ckb_amount, udt_amount)` of a group output
(lines 226-269 of `unlocker.rs`). -/
def acpOutputRead (calcHash : Script → Bytes) (tx : Tx) (oIdx : Nat) :
    Except UnlockError (Option Bytes × Nat × Nat) :=
  match tx.outputs.get? oIdx with
  | none => .error .other
  | some output =>
    match tx.outputsData.get? oIdx with
    | none => .error .other
    | some outputData =>
      let typeHash := output.typeScript.map calcHash
      if typeHash.isSome ∧ outputData.length < 16 then .error .other
      else
        .ok (typeHash, output.capacity,
             if typeHash.isSome then fromLeBytes (outputData.take 16) else 0)

/-- The per-pair acceptance check of lines 273-288 of `unlocker.rs`:
overflow-checked minima, then the two reject conditions. -/
def acpPairCheck (minCkb minUdt inCkb inUdt outCkb outUdt : Nat) : Bool :=
  let ckbAdd := overflowingAdd64 inCkb minCkb
  let meetCkb := !ckbAdd.2 && decide (outCkb ≥ ckbAdd.1)
  let udtAdd := overflowingAdd128 inUdt minUdt
  let meetUdt := !udtAdd.2 && decide (outUdt ≥ udtAdd.1)
  if !(meetCkb || meetUdt) then false
  else if (!meetCkb && outCkb ≠ inCkb) || (!meetUdt && outUdt ≠ inUdt) then false
  else true

/-- The inner `for input_wallet in &mut input_wallets` loop for one output
(lines 270-300): `none` models an early `return Ok(false)`; on success it
returns the updated wallets and the final `found_inputs` counter. -/
def acpProcessWallets (minCkb minUdt : Nat) (oHash : Option Bytes)
    (outCkb outUdt : Nat) :
    List InputWallet → Nat → Option (List InputWallet × Nat)
  | [], found => some ([], found)
  | w :: ws, found =>
    if w.typeHash = oHash then
      if !acpPairCheck minCkb minUdt w.ckbAmount w.udtAmount outCkb outUdt then
        none
      else
        let found' := found + 1
        let w' := { w with outputCnt := w.outputCnt + 1 }
        if found' > 1 then none
        else if w'.outputCnt > 1 then none
        else
          match acpProcessWallets minCkb minUdt oHash outCkb outUdt ws found' with
          | none => none
          | some (ws', f) => some (w' :: ws', f)
    else
      match acpProcessWallets minCkb minUdt oHash outCkb outUdt ws found with
      | none => none
      | some (ws', f) => some (w :: ws', f)

/-- The `for output_idx in &script_group.output_indices` loop plus the final
`output_cnt == 1` check (lines 226-312). -/
def acpCheckOutputs (minCkb minUdt : Nat) (calcHash : Script → Bytes)
    (tx : Tx) : List Nat → List InputWallet → Except UnlockError Bool
  | [], ws => .ok (ws.all (fun w => w.outputCnt == 1))
  | o :: rest, ws =>
    match acpOutputRead calcHash tx o with
    | .error e => .error e
    | .ok (th, outCkb, outUdt) =>
      match acpProcessWallets minCkb minUdt th outCkb outUdt ws 0 with
      | none => .ok false
      | some (ws', found) =>
        if found ≠ 1 then .ok false
        else acpCheckOutputs minCkb minUdt calcHash tx rest ws'

/-- `AnyoneCanPayUnlocker::is_unlocked` (lines 131-313 of `unlocker.rs`). -/
def acpIsUnlocked (calcHash : Script → Bytes) (tx : Tx) (g : ScriptGroup)
    (dep : TxDepProvider) : Except UnlockError Bool :=
  match acpMinCkb g.script.args with
  | .error e => .error e
  | .ok minCkb =>
    match acpMinUdt g.script.args with
    | .error e => .error e
    | .ok minUdt =>
      match acpBuildWallets calcHash dep tx g.inputIndices with
      | .error e => .error e
      | .ok ws => acpCheckOutputs minCkb minUdt calcHash tx g.outputIndices ws

/-- Whether a group output's type hash (as read by `is_unlocked`) equals a
given wallet type hash; used to count an input wallet's pairing outputs. -/
def acpOutputMatches (calcHash : Script → Bytes) (tx : Tx)
    (th : Option Bytes) (oIdx : Nat) : Bool :=
  match acpOutputRead calcHash tx oIdx with
  | .ok (th', _, _) => decide (th' = th)
  | .error _ => false

/-! ## Cheque unlocker (`ChequeUnlocker::is_unlocked`) -/

/-- `CHEQUE_CLAIM_SINCE`. -/
def chequeClaimSince : Nat := 0

/-- `CHEQUE_WITHDRAW_SINCE` (relative, 6 epochs). -/
def chequeWithdrawSince : Nat := 0xA000000000000006

/-- Default cell input, used to model the source's direct `inputs[*idx]`
indexing when building the since list. -/
def defaultCellInput : CellInput := ⟨⟨[], 0⟩, 0⟩

/-- The scan over all transaction inputs of lines 370-390 of `unlocker.rs`:
record the first input whose lock-hash 20-byte head equals the receiver
hash, and the first one (among inputs not matching the receiver hash)
equal to the sender hash, together with their witnesses. -/
def chequeScan (calcHash : Script → Bytes) (dep : TxDepProvider) (tx : Tx)
    (receiverHash senderHash : Bytes) :
    List (Nat × CellInput) → Option (Nat × Bytes) → Option (Nat × Bytes) →
    Except UnlockError (Option (Nat × Bytes) × Option (Nat × Bytes))
  | [], recv, send => .ok (recv, send)
  | (idx, input) :: rest, recv, send =>
    match dep.getCell input.previousOutput with
    | none => .error .txDep
    | some output =>
      let lockHashHead := (calcHash output.lock).take 20
      let witness := tx.witnesses.getD idx []
      if lockHashHead = receiverHash then
        chequeScan calcHash dep tx receiverHash senderHash rest
          (if recv.isNone then some (idx, witness) else recv) send
      else if lockHashHead = senderHash then
        chequeScan calcHash dep tx receiverHash senderHash rest
          recv (if send.isNone then some (idx, witness) else send)
      else
        chequeScan calcHash dep tx receiverHash senderHash rest recv send

/-- Check the matched input's witness: it must parse as `WitnessArgs` and
have a present `lock` field (lines 403-420 / 433-450); `parseWA` models the
molecule decoder `WitnessArgs::from_slice`. -/
def chequeWitnessCheck (parseWA : Bytes → Option WitnessArgs)
    (witness : Bytes) : Except UnlockError Bool :=
  match parseWA witness with
  | none => .error .other
  | some wa =>
    if wa.lock.isNone then .error .other
    else .ok true

/-- `ChequeUnlocker::is_unlocked` (lines 342-454 of `unlocker.rs`). -/
def chequeIsUnlocked (calcHash : Script → Bytes)
    (parseWA : Bytes → Option WitnessArgs) (tx : Tx) (g : ScriptGroup)
    (dep : TxDepProvider) : Except UnlockError Bool :=
  let args := g.script.args
  if args.length ≠ 40 then .error .other
  else
    let groupSinceList :=
      g.inputIndices.map (fun i => (tx.inputs.getD i defaultCellInput).since)
    let receiverHash := args.take 20
    let senderHash := (args.drop 20).take 20
    match chequeScan calcHash dep tx receiverHash senderHash
        tx.inputs.enum none none with
    | .error e => .error e
    | .ok (recv, send) =>
      match recv with
      | some (_, witness) =>
        if groupSinceList.any (fun s => s ≠ chequeClaimSince) then
          .error .other
        else chequeWitnessCheck parseWA witness
      | none =>
        match send with
        | some (_, witness) =>
          if groupSinceList.any (fun s => s ≠ chequeWithdrawSince) then
            .error .other
          else chequeWitnessCheck parseWA witness
        | none => .ok false

/-! ## Transaction builders -/

/-- `HashSet::insert` modelled on a list keeping insertion order. -/
def insertDep (ds : List CellDep) (d : CellDep) : List CellDep :=
  if d ∈ ds then ds else ds ++ [d]

/-- `TransferAction`. -/
inductive TransferAction where
  | create
  | update
  deriving DecidableEq, Repr

/-- `UdtTargetReceiver`. -/
structure UdtTargetReceiver where
  action : TransferAction
  lockScript : Script
  capacity : Option Nat
  amount : Nat
  extraData : Option Bytes
  deriving DecidableEq, Repr

/-- `ReceiverBuildOutput`. -/
structure ReceiverBuildOutput where
  input : Option CellInput
  cellDep : Option CellDep
  output : CellOutput
  outputData : Bytes
  deriving DecidableEq, Repr

/-- A stateful cell collector: `collect s query` returns the collected
live cells, their reported total capacity, and the successor state
(`CellCollector` is threaded by `&mut` in the source). -/
abbrev Collector (σ : Type) := σ → CellQueryOptions → (List LiveCell × Nat) × σ

/-- A cell-dep resolver: `CellDepResolver::resolve`. -/
abbrev DepResolver := ScriptId → Option CellDep

/-- `UdtTargetReceiver::build` (lines 56-152 of `udt/mod.rs`);
`occupied lock type_ dataLen` models the external
`CellOutput::occupied_capacity` computation from the lock script, the
type script and the data length. -/
def udtReceiverBuild {σ : Type} (occupied : Script → Option Script → Nat → Nat)
    (r : UdtTargetReceiver) (typeScript : Script) (collect : Collector σ)
    (s : σ) (resolver : DepResolver) :
    Except TxBuilderError (ReceiverBuildOutput × σ) :=
  match r.action with
  | .create =>
    let dataLen := (r.extraData.map List.length).getD 0 + 16
    let data := toLeBytes16 r.amount ++ r.extraData.getD []
    let baseOccupied := occupied r.lockScript (some typeScript) dataLen
    let finalCapacity? : Except TxBuilderError Nat :=
      match r.capacity with
      | some cap => if cap ≥ baseOccupied then .ok cap else .error .other
      | none => .ok baseOccupied
    match finalCapacity? with
    | .error e => .error e
    | .ok finalCapacity =>
      .ok (⟨none, none, ⟨finalCapacity, r.lockScript, some typeScript⟩, data⟩, s)
  | .update =>
    let query : CellQueryOptions :=
      ⟨r.lockScript, some typeScript, some (.newMin 16)⟩
    let step := collect s query
    match step.1.1 with
    | [] => .error .other
    | receiverCell :: _ =>
      match resolver (ScriptId.ofScript r.lockScript) with
      | none => .error (.resolveCellDepFailed (ScriptId.ofScript r.lockScript))
      | some receiverCellDep =>
        let oldAmount := fromLeBytes (receiverCell.outputData.take 16)
        let newAmount := oldAmount + r.amount
        let outputData := toLeBytes16 newAmount ++ receiverCell.outputData.drop 16
        .ok (⟨some ⟨receiverCell.outPoint, 0⟩, some receiverCellDep,
              receiverCell.output, outputData⟩, step.2)

/-- `UdtTransferBuilder`. -/
structure UdtTransferBuilder where
  typeScript : Script
  sender : Script
  receivers : List UdtTargetReceiver

/-- The `for receiver in &self.receivers` loop shared by the udt builders:
append each receiver's build output to the accumulated transaction parts. -/
def udtReceiversLoop {σ : Type} (occupied : Script → Option Script → Nat → Nat)
    (typeScript : Script) (collect : Collector σ) (resolver : DepResolver) :
    σ → List UdtTargetReceiver → List CellDep → List CellInput →
    List CellOutput → List Bytes → Except TxBuilderError (Tx × σ)
  | s, [], deps, ins, outs, datas => .ok (⟨deps, ins, outs, datas, []⟩, s)
  | s, r :: rs, deps, ins, outs, datas =>
    match udtReceiverBuild occupied r typeScript collect s resolver with
    | .error e => .error e
    | .ok (built, s') =>
      udtReceiversLoop occupied typeScript collect resolver s' rs
        (match built.cellDep with
         | some d => insertDep deps d
         | none => deps)
        (ins ++ (match built.input with
                 | some i => [i]
                 | none => []))
        (outs ++ [built.output])
        (datas ++ [built.outputData])

/-- `UdtTransferBuilder::build_base` (lines 266-349 of `udt/mod.rs`). -/
def udtTransferBuildBase {σ : Type}
    (occupied : Script → Option Script → Nat → Nat)
    (b : UdtTransferBuilder) (collect : Collector σ) (s : σ)
    (resolver : DepResolver) : Except TxBuilderError (Tx × σ) :=
  let senderQuery : CellQueryOptions :=
    ⟨b.sender, some b.typeScript, some (.newMin 16)⟩
  let step := collect s senderQuery
  match step.1.1 with
  | [] => .error .other
  | senderCell :: _ =>
    match resolver (ScriptId.ofScript b.sender) with
    | none => .error (.resolveCellDepFailed (ScriptId.ofScript b.sender))
    | some senderCellDep =>
      match resolver (ScriptId.ofScript b.typeScript) with
      | none => .error (.resolveCellDepFailed (ScriptId.ofScript b.typeScript))
      | some udtCellDep =>
        let cellDeps := insertDep (insertDep [] senderCellDep) udtCellDep
        let inputTotal := fromLeBytes (senderCell.outputData.take 16)
        let outputTotal := (b.receivers.map (fun r => r.amount)).sum
        if inputTotal < outputTotal then .error .other
        else
          let senderOutputData :=
            toLeBytes16 (inputTotal - outputTotal) ++ senderCell.outputData.drop 16
          udtReceiversLoop occupied b.typeScript collect resolver step.2
            b.receivers cellDeps [⟨senderCell.outPoint, 0⟩]
            [senderCell.output] [senderOutputData]

/-- `AcpTransferReceiver`. -/
structure AcpTransferReceiver where
  lockScript : Script
  capacity : Nat
  deriving DecidableEq, Repr

/-- `AcpTransferBuilder`. -/
structure AcpTransferBuilder where
  receivers : List AcpTransferReceiver

/-- The `for receiver in &self.receivers` loop of
`AcpTransferBuilder::build_base` (lines 40-79 of `acp.rs`). -/
def acpReceiversLoop {σ : Type} (collect : Collector σ)
    (resolver : DepResolver) :
    σ → List AcpTransferReceiver → List CellDep → List CellInput →
    List CellOutput → List Bytes → Except TxBuilderError (Tx × σ)
  | s, [], deps, ins, outs, datas => .ok (⟨deps, ins, outs, datas, []⟩, s)
  | s, r :: rs, deps, ins, outs, datas =>
    let query := CellQueryOptions.newLock r.lockScript
    let step := collect s query
    match step.1.1 with
    | [] => .error .other
    | inputCell :: _ =>
      let inputCapacity := step.1.2
      let input : CellInput := ⟨inputCell.outPoint, 0⟩
      let outputCapacity := inputCapacity + r.capacity
      let output : CellOutput :=
        { inputCell.output with capacity := outputCapacity }
      let outputData := inputCell.outputData
      match resolver (ScriptId.ofScript r.lockScript) with
      | none => .error (.resolveCellDepFailed (ScriptId.ofScript r.lockScript))
      | some lockCellDep =>
        let deps1 := insertDep deps lockCellDep
        let depsFinal? : Except TxBuilderError (List CellDep) :=
          match inputCell.output.typeScript with
          | some typeScript =>
            match resolver (ScriptId.ofScript typeScript) with
            | none => .error (.resolveCellDepFailed (ScriptId.ofScript typeScript))
            | some typeCellDep => .ok (insertDep deps1 typeCellDep)
          | none => .ok deps1
        match depsFinal? with
        | .error e => .error e
        | .ok deps' =>
          acpReceiversLoop collect resolver step.2 rs deps'
            (ins ++ [input]) (outs ++ [output]) (datas ++ [outputData])

/-- `AcpTransferBuilder::build_base` (lines 27-86 of `acp.rs`). -/
def acpTransferBuildBase {σ : Type} (b : AcpTransferBuilder)
    (collect : Collector σ) (s : σ) (resolver : DepResolver) :
    Except TxBuilderError (Tx × σ) :=
  acpReceiversLoop collect resolver s b.receivers [] [] [] []

/-! ## Unlocker trait defaults (`ScriptUnlocker`) -/

/-- The `ScriptUnlocker::is_unlocked` default body (lines 39-46 of
`unlocker.rs`): always `Ok(false)`. -/
def scriptUnlockerDefaultIsUnlocked (_tx : Tx) (_g : ScriptGroup)
    (_dep : TxDepProvider) : Except UnlockError Bool :=
  .ok false

/-- A `ScriptUnlocker` trait object: the `isUnlocked` field defaults to the
trait's default implementation when an impl does not override it. -/
structure ScriptUnlockerImpl where
  matchArgs : Bytes → Bool
  isUnlocked : Tx → ScriptGroup → TxDepProvider → Except UnlockError Bool :=
    scriptUnlockerDefaultIsUnlocked
  unlock : Tx → ScriptGroup → TxDepProvider → Except UnlockError Tx

/-- `Secp256k1SighashUnlocker` (lines 71-92): delegates `match_args` and
`unlock` to its signer and does not override `is_unlocked`; `signerMatch`
and `signTx` model the external `Secp256k1SighashSigner`. -/
def secp256k1SighashUnlocker (signerMatch : Bytes → Bool)
    (signTx : Tx → ScriptGroup → Except UnlockError Tx) : ScriptUnlockerImpl :=
  { matchArgs := signerMatch
    unlock := fun tx g _ => signTx tx g }

/-- `Secp256k1MultisigUnlocker` (lines 94-115): args length 20 or 28 plus
the signer's own match; does not override `is_unlocked`. -/
def secp256k1MultisigUnlocker (signerMatch : Bytes → Bool)
    (signTx : Tx → ScriptGroup → Except UnlockError Tx) : ScriptUnlockerImpl :=
  { matchArgs := fun args =>
      (args.length == 20 || args.length == 28) && signerMatch args
    unlock := fun tx g _ => signTx tx g }

/-- Modelled from the spec: one step of the `unlock_tx` orchestration
(spec §4.3, step 3) for a single group — `unlock_tx` itself is not under
`src/`. If `is_unlocked` returns true the group is skipped, otherwise
`unlock` is invoked; the boolean records whether the group was skipped. -/
def unlockTxStep (u : ScriptUnlockerImpl) (tx : Tx) (g : ScriptGroup)
    (dep : TxDepProvider) : Except UnlockError (Bool × Tx) :=
  match u.isUnlocked tx g dep with
  | .error e => .error e
  | .ok true => .ok (true, tx)
  | .ok false =>
    match u.unlock tx g dep with
    | .error e => .error e
    | .ok tx' => .ok (false, tx')

/-! ## Theorems -/

/-- The `POW10` table holds exactly the powers of ten. -/
lemma pow10_getD (i : Nat) (h : i < 20) : POW10.getD i 0 = 10 ^ i := by
  revert h
  revert i
  decide

/-- Entry characterization of the udt minimum for indices below 39. -/
lemma pow10_udt (i : Nat) (h : i < 39) :
    (if i ≥ 20 then POW10.getD 19 0 * POW10.getD (i - 19) 0
     else POW10.getD i 0) = 10 ^ i := by
  revert h
  revert i
  decide

/-- C7: the minimum ckb amount used by `AnyoneCanPayUnlocker::is_unlocked`
is `10^idx` for `idx = args[20] < 20` (error for `idx ≥ 20`, zero when the
byte is absent), and the minimum udt amount is `10^idx` for
`idx = args[21] < 39` (error for `idx ≥ 39`, zero when absent). -/
theorem acp_min_amounts (args : Bytes) :
    (args.length ≤ 20 → acpMinCkb args = .ok 0) ∧
    (args.length > 20 → args.getD 20 0 < 20 →
      acpMinCkb args = .ok (10 ^ args.getD 20 0)) ∧
    (args.length > 20 → args.getD 20 0 ≥ 20 →
      acpMinCkb args = .error .other) ∧
    (args.length ≤ 21 → acpMinUdt args = .ok 0) ∧
    (args.length > 21 → args.getD 21 0 < 39 →
      acpMinUdt args = .ok (10 ^ args.getD 21 0)) ∧
    (args.length > 21 → args.getD 21 0 ≥ 39 →
      acpMinUdt args = .error .other) := by
  refine ⟨?_, ?_, ?_, ?_, ?_, ?_⟩
  · intro h
    simp [acpMinCkb, Nat.not_lt.mpr h]
  · intro h hidx
    rw [acpMinCkb]
    simp only [h, if_true, gt_iff_lt]
    rw [if_neg (by omega), pow10_getD _ hidx]
  · intro h hidx
    rw [acpMinCkb]
    simp only [h, if_true, gt_iff_lt]
    rw [if_pos hidx]
  · intro h
    simp [acpMinUdt, Nat.not_lt.mpr h]
  · intro h hidx
    rw [acpMinUdt]
    simp only [h, if_true, gt_iff_lt]
    rw [if_neg (by omega)]
    have := pow10_udt (args.getD 21 0) hidx
    by_cases h20 : args.getD 21 0 ≥ 20
    · rw [if_pos h20]
      rw [if_pos h20] at this
      rw [this]
    · rw [if_neg h20]
      rw [if_neg h20] at this
      rw [this]
  · intro h hidx
    rw [acpMinUdt]
    simp only [h, if_true, gt_iff_lt]
    rw [if_pos hidx]

/-- Witness for `acp_min_amounts` at concrete args. -/
theorem acp_min_amounts_witness :
    acpMinCkb [0, 1, 2, 3, 4, 5, 6, 7, 8, 9, 10, 11, 12, 13, 14, 15, 16,
      17, 18, 19, 8, 25] = .ok (10 ^ 8) ∧
    acpMinUdt [0, 1, 2, 3, 4, 5, 6, 7, 8, 9, 10, 11, 12, 13, 14, 15, 16,
      17, 18, 19, 8, 25] = .ok (10 ^ 25) := by
  constructor
  · exact (acp_min_amounts _).2.1 (by decide) (by decide)
  · exact (acp_min_amounts _).2.2.2.2.1 (by decide) (by decide)

/-- C4: a pair accepted by the per-pair check of
`AnyoneCanPayUnlocker::is_unlocked` satisfies at least one of the two
threshold conditions, and any dimension whose threshold is not met is left
exactly equal to the input's value. -/
theorem acp_pair_check_sound (minCkb minUdt inCkb inUdt outCkb outUdt : Nat)
    (h : acpPairCheck minCkb minUdt inCkb inUdt outCkb outUdt = true) :
    (outCkb ≥ inCkb + minCkb ∨ outUdt ≥ inUdt + minUdt) ∧
    (outCkb < inCkb + minCkb → outCkb = inCkb) ∧
    (outUdt < inUdt + minUdt → outUdt = inUdt) := by
  unfold acpPairCheck overflowingAdd64 overflowingAdd128 at h
  by_cases h1 : 2 ^ 64 ≤ inCkb + minCkb <;>
  by_cases h2 : (inCkb + minCkb) % 2 ^ 64 ≤ outCkb <;>
  by_cases h3 : 2 ^ 128 ≤ inUdt + minUdt <;>
  by_cases h4 : (inUdt + minUdt) % 2 ^ 128 ≤ outUdt <;>
  by_cases h5 : outCkb = inCkb <;>
  by_cases h6 : outUdt = inUdt <;>
  simp [h1, h2, h3, h4, h5, h6] at h <;>
  omega

/-- Witness for `acp_pair_check_sound` at a concrete accepted pair. -/
theorem acp_pair_check_sound_witness :
    (101 ≥ 100 + 1 ∨ 7 ≥ 7 + 0) ∧ (101 < 100 + 1 → 101 = 100) ∧
    (7 < 7 + 0 → 7 = 7) :=
  acp_pair_check_sound 1 0 100 7 101 7 (by decide)

/-- The wallet update applied by a successful pass of the inner loop: the
`output_cnt` of every wallet matching the output's type hash is bumped. -/
def acpBumpWallet (th : Option Bytes) (w : InputWallet) : InputWallet :=
  if w.typeHash = th then { w with outputCnt := w.outputCnt + 1 } else w

lemma acpBumpWallet_typeHash (th : Option Bytes) (w : InputWallet) :
    (acpBumpWallet th w).typeHash = w.typeHash := by
  unfold acpBumpWallet
  split <;> rfl

lemma acpBumpWallet_ckb (th : Option Bytes) (w : InputWallet) :
    (acpBumpWallet th w).ckbAmount = w.ckbAmount := by
  unfold acpBumpWallet
  split <;> rfl

lemma acpBumpWallet_udt (th : Option Bytes) (w : InputWallet) :
    (acpBumpWallet th w).udtAmount = w.udtAmount := by
  unfold acpBumpWallet
  split <;> rfl

lemma acpBumpWallet_cnt (th : Option Bytes) (w : InputWallet) :
    (acpBumpWallet th w).outputCnt
      = w.outputCnt + (if w.typeHash = th then 1 else 0) := by
  unfold acpBumpWallet
  split <;> simp

/-- Specification of a successful inner-loop pass: the wallets are bumped,
the final counter adds the number of matching wallets, and if any wallet
matched, the counter stays at most one (a second match aborts). -/
lemma acpProcessWallets_some (mc mu : Nat) (th : Option Bytes) (oc ou : Nat) :
    ∀ (ws : List InputWallet) (f f' : Nat) (ws' : List InputWallet),
      acpProcessWallets mc mu th oc ou ws f = some (ws', f') →
      ws' = ws.map (acpBumpWallet th) ∧
      f' = f + ws.countP (fun w => decide (w.typeHash = th)) ∧
      (1 ≤ ws.countP (fun w => decide (w.typeHash = th)) → f' ≤ 1) := by
  intro ws
  induction ws with
  | nil =>
    intro f f' ws' h
    simp only [acpProcessWallets, Option.some.injEq, Prod.mk.injEq] at h
    obtain ⟨h1, h2⟩ := h
    subst h1
    subst h2
    simp
  | cons w ws ih =>
    intro f f' ws' h
    simp only [acpProcessWallets] at h
    by_cases hm : w.typeHash = th
    · rw [if_pos hm] at h
      cases hpc : acpPairCheck mc mu w.ckbAmount w.udtAmount oc ou with
      | false => simp [hpc] at h
      | true =>
        simp only [hpc, Bool.not_true, Bool.false_eq_true, if_false] at h
        by_cases hf : f + 1 > 1
        · rw [if_pos hf] at h
          exact absurd h (by simp)
        · rw [if_neg hf] at h
          by_cases hcnt : w.outputCnt + 1 > 1
          · rw [if_pos hcnt] at h
            exact absurd h (by simp)
          · rw [if_neg hcnt] at h
            cases hrec : acpProcessWallets mc mu th oc ou ws (f + 1) with
            | none => rw [hrec] at h; exact absurd h (by simp)
            | some p =>
              obtain ⟨ws1, f1⟩ := p
              rw [hrec] at h
              simp only [Option.some.injEq, Prod.mk.injEq] at h
              obtain ⟨hws, hf1⟩ := h
              obtain ⟨ih1, ih2, ih3⟩ := ih (f + 1) f1 ws1 hrec
              subst hws
              subst hf1
              refine ⟨?_, ?_, ?_⟩
              · rw [List.map_cons, ih1]
                congr 1
                unfold acpBumpWallet
                rw [if_pos hm]
              · rw [List.countP_cons_of_pos _ _ (by simpa using hm), ih2]
                omega
              · intro _
                by_cases hws1 : 1 ≤ ws.countP (fun w => decide (w.typeHash = th))
                · exact ih3 hws1
                · omega
    · rw [if_neg hm] at h
      cases hrec : acpProcessWallets mc mu th oc ou ws f with
      | none => rw [hrec] at h; exact absurd h (by simp)
      | some p =>
        obtain ⟨ws1, f1⟩ := p
        rw [hrec] at h
        simp only [Option.some.injEq, Prod.mk.injEq] at h
        obtain ⟨hws, hf1⟩ := h
        obtain ⟨ih1, ih2, ih3⟩ := ih f f1 ws1 hrec
        subst hws
        subst hf1
        refine ⟨?_, ?_, ?_⟩
        · rw [List.map_cons, ih1]
          congr 1
          unfold acpBumpWallet
          rw [if_neg hm]
        · rw [List.countP_cons_of_neg _ _ (by simpa using hm), ih2]
        · intro hc
          rw [List.countP_cons_of_neg _ _ (by simpa using hm)] at hc
          exact ih3 hc

/-- If some wallet matches the output's type hash but fails the per-pair
check, the inner loop aborts with `Ok(false)` (modelled by `none`). -/
lemma acpProcessWallets_failing (mc mu : Nat) (th : Option Bytes)
    (oc ou : Nat) :
    ∀ (ws : List InputWallet) (f : Nat),
      (∃ w ∈ ws, w.typeHash = th ∧
        acpPairCheck mc mu w.ckbAmount w.udtAmount oc ou = false) →
      acpProcessWallets mc mu th oc ou ws f = none := by
  intro ws
  induction ws with
  | nil =>
    intro f h
    simp at h
  | cons w ws ih =>
    intro f h
    simp only [acpProcessWallets]
    rcases h with ⟨w0, hmem, hth, hpc0⟩
    rcases List.mem_cons.mp hmem with heq | hmem'
    · subst heq
      rw [if_pos hth, hpc0]
      simp
    · by_cases hm : w.typeHash = th
      · rw [if_pos hm]
        cases hpc : acpPairCheck mc mu w.ckbAmount w.udtAmount oc ou with
        | false => simp
        | true =>
          simp only [hpc, Bool.not_true, Bool.false_eq_true, if_false]
          by_cases hf : f + 1 > 1
          · rw [if_pos hf]
          · rw [if_neg hf]
            by_cases hcnt : w.outputCnt + 1 > 1
            · rw [if_pos hcnt]
            · rw [if_neg hcnt]
              rw [ih (f + 1) ⟨w0, hmem', hth, hpc0⟩]
      · rw [if_neg hm]
        rw [ih f ⟨w0, hmem', hth, hpc0⟩]

lemma countP_map_bump (th th' : Option Bytes) (ws : List InputWallet) :
    (ws.map (acpBumpWallet th)).countP (fun w => decide (w.typeHash = th'))
      = ws.countP (fun w => decide (w.typeHash = th')) := by
  rw [List.countP_map]
  apply List.countP_congr
  intro w _
  simp [Function.comp, acpBumpWallet_typeHash]

/-- A successful `is_unlocked` output loop implies the pairing counts: each
group output's type hash matches exactly one wallet, and each wallet's
initial `output_cnt` plus its number of matching group outputs is one. -/
lemma acpCheckOutputs_true (mc mu : Nat) (calcHash : Script → Bytes)
    (tx : Tx) :
    ∀ (oIdxs : List Nat) (ws : List InputWallet),
      acpCheckOutputs mc mu calcHash tx oIdxs ws = .ok true →
      (∀ o ∈ oIdxs, ∃ th oc ou,
        acpOutputRead calcHash tx o = .ok (th, oc, ou) ∧
        ws.countP (fun w => decide (w.typeHash = th)) = 1) ∧
      (∀ w ∈ ws, w.outputCnt
        + oIdxs.countP (acpOutputMatches calcHash tx w.typeHash) = 1) := by
  intro oIdxs
  induction oIdxs with
  | nil =>
    intro ws h
    simp only [acpCheckOutputs, Except.ok.injEq] at h
    refine ⟨by simp, ?_⟩
    intro w hw
    have := List.all_eq_true.mp h w hw
    simp only [beq_iff_eq] at this
    simp [this]
  | cons o rest ih =>
    intro ws h
    simp only [acpCheckOutputs] at h
    cases hread : acpOutputRead calcHash tx o with
    | error e => rw [hread] at h; exact absurd h (by simp)
    | ok v =>
      obtain ⟨th, oc, ou⟩ := v
      rw [hread] at h
      dsimp only at h
      cases hproc : acpProcessWallets mc mu th oc ou ws 0 with
      | none => rw [hproc] at h; exact absurd h (by simp)
      | some p =>
        obtain ⟨ws1, found⟩ := p
        rw [hproc] at h
        dsimp only at h
        by_cases hf : found ≠ 1
        · rw [if_pos hf] at h
          exact absurd h (by simp)
        · rw [if_neg hf] at h
          push_neg at hf
          obtain ⟨hws1, hfound, _⟩ :=
            acpProcessWallets_some mc mu th oc ou ws 0 found ws1 hproc
          have hcount : ws.countP (fun w => decide (w.typeHash = th)) = 1 := by
            omega
          obtain ⟨ih1, ih2⟩ := ih ws1 h
          constructor
          · intro o' ho'
            rcases List.mem_cons.mp ho' with heq | hmem
            · subst heq
              exact ⟨th, oc, ou, hread, hcount⟩
            · obtain ⟨th', oc', ou', hread', hcount'⟩ := ih1 o' hmem
              refine ⟨th', oc', ou', hread', ?_⟩
              rw [hws1, countP_map_bump] at hcount'
              exact hcount'
          · intro w hw
            have hbw : acpBumpWallet th w ∈ ws1 := by
              rw [hws1]
              exact List.mem_map_of_mem _ hw
            have := ih2 (acpBumpWallet th w) hbw
            rw [acpBumpWallet_typeHash, acpBumpWallet_cnt] at this
            have hmatch : acpOutputMatches calcHash tx w.typeHash o
                = decide (th = w.typeHash) := by
              unfold acpOutputMatches
              rw [hread]
            by_cases hth : w.typeHash = th
            · rw [List.countP_cons_of_pos]
              · rw [if_pos hth] at this
                omega
              · rw [hmatch]
                simp [hth]
            · rw [List.countP_cons_of_neg]
              · rw [if_neg hth] at this
                omega
              · rw [hmatch]
                simp
                intro hc
                exact hth hc.symm

/-- If every group output can be read, the output loop never raises an
error: all rejections surface as `Ok(false)`. -/
lemma acpCheckOutputs_total (mc mu : Nat) (calcHash : Script → Bytes)
    (tx : Tx) :
    ∀ (oIdxs : List Nat) (ws : List InputWallet),
      (∀ o ∈ oIdxs, ∃ v, acpOutputRead calcHash tx o = .ok v) →
      ∃ b, acpCheckOutputs mc mu calcHash tx oIdxs ws = .ok b := by
  intro oIdxs
  induction oIdxs with
  | nil =>
    intro ws _
    exact ⟨_, rfl⟩
  | cons o rest ih =>
    intro ws hreads
    obtain ⟨v, hread⟩ := hreads o (List.mem_cons_self o rest)
    obtain ⟨th, oc, ou⟩ := v
    simp only [acpCheckOutputs]
    rw [hread]
    dsimp only
    cases hproc : acpProcessWallets mc mu th oc ou ws 0 with
    | none => exact ⟨false, rfl⟩
    | some p =>
      obtain ⟨ws1, found⟩ := p
      dsimp only
      by_cases hf : found ≠ 1
      · rw [if_pos hf]
        exact ⟨false, rfl⟩
      · rw [if_neg hf]
        exact ih ws1 (fun o' ho' => hreads o' (List.mem_cons_of_mem _ ho'))

/-- If some group output's unique considered pair fails the per-pair check,
the output loop cannot answer `Ok(true)`. -/
lemma acpCheckOutputs_failing (mc mu : Nat) (calcHash : Script → Bytes)
    (tx : Tx) :
    ∀ (oIdxs : List Nat) (ws : List InputWallet) (b : Bool),
      acpCheckOutputs mc mu calcHash tx oIdxs ws = .ok b →
      (∃ o ∈ oIdxs, ∃ th oc ou,
        acpOutputRead calcHash tx o = .ok (th, oc, ou) ∧
        ∃ w ∈ ws, w.typeHash = th ∧
          acpPairCheck mc mu w.ckbAmount w.udtAmount oc ou = false) →
      b = false := by
  intro oIdxs
  induction oIdxs with
  | nil =>
    intro ws b _ hex
    simp at hex
  | cons o rest ih =>
    intro ws b h hex
    simp only [acpCheckOutputs] at h
    rcases hex with ⟨o', ho', th', oc', ou', hread', w0, hw0, hth0, hpc0⟩
    rcases List.mem_cons.mp ho' with heq | hmem
    · subst heq
      rw [hread'] at h
      dsimp only at h
      rw [acpProcessWallets_failing mc mu th' oc' ou' ws 0
        ⟨w0, hw0, hth0, hpc0⟩] at h
      simpa using h.symm
    · cases hread : acpOutputRead calcHash tx o with
      | error e => rw [hread] at h; exact absurd h (by simp)
      | ok v =>
        obtain ⟨th, oc, ou⟩ := v
        rw [hread] at h
        dsimp only at h
        cases hproc : acpProcessWallets mc mu th oc ou ws 0 with
        | none =>
          rw [hproc] at h
          simpa using h.symm
        | some p =>
          obtain ⟨ws1, found⟩ := p
          rw [hproc] at h
          dsimp only at h
          by_cases hf : found ≠ 1
          · rw [if_pos hf] at h
            simpa using h.symm
          · rw [if_neg hf] at h
            obtain ⟨hws1, _, _⟩ :=
              acpProcessWallets_some mc mu th oc ou ws 0 found ws1 hproc
            apply ih ws1 b h
            refine ⟨o', hmem, th', oc', ou', hread',
              acpBumpWallet th w0, ?_, ?_, ?_⟩
            · rw [hws1]
              exact List.mem_map_of_mem _ hw0
            · rw [acpBumpWallet_typeHash]
              exact hth0
            · rw [acpBumpWallet_ckb, acpBumpWallet_udt]
              exact hpc0

/-- A wallet built by `is_unlocked` starts with `output_cnt = 0`. -/
lemma acpBuildInputWallet_cnt (calcHash : Script → Bytes)
    (dep : TxDepProvider) (tx : Tx) (idx : Nat) (w : InputWallet)
    (h : acpBuildInputWallet calcHash dep tx idx = .ok w) :
    w.outputCnt = 0 := by
  unfold acpBuildInputWallet at h
  cases hin : tx.inputs.get? idx with
  | none => rw [hin] at h; exact absurd h (by simp)
  | some input =>
    rw [hin] at h
    dsimp only at h
    cases hc : dep.getCell input.previousOutput with
    | none => rw [hc] at h; exact absurd h (by simp)
    | some output =>
      rw [hc] at h
      dsimp only at h
      cases hd : dep.getCellData input.previousOutput with
      | none => rw [hd] at h; exact absurd h (by simp)
      | some outputData =>
        rw [hd] at h
        dsimp only at h
        by_cases hlen : (output.typeScript.map calcHash).isSome
            ∧ outputData.length < 16
        · rw [if_pos hlen] at h
          exact absurd h (by simp)
        · rw [if_neg hlen] at h
          simp only [Except.ok.injEq] at h
          rw [← h]

lemma acpBuildWallets_cnt (calcHash : Script → Bytes) (dep : TxDepProvider)
    (tx : Tx) :
    ∀ (idxs : List Nat) (ws : List InputWallet),
      acpBuildWallets calcHash dep tx idxs = .ok ws →
      ∀ w ∈ ws, w.outputCnt = 0 := by
  intro idxs
  induction idxs with
  | nil =>
    intro ws h
    simp only [acpBuildWallets, Except.ok.injEq] at h
    subst h
    simp
  | cons i rest ih =>
    intro ws h
    simp only [acpBuildWallets] at h
    cases hb : acpBuildInputWallet calcHash dep tx i with
    | error e => rw [hb] at h; exact absurd h (by simp)
    | ok w0 =>
      rw [hb] at h
      cases hr : acpBuildWallets calcHash dep tx rest with
      | error e => rw [hr] at h; exact absurd h (by simp)
      | ok ws0 =>
        rw [hr] at h
        simp only [Except.ok.injEq] at h
        subst h
        intro w hw
        rcases List.mem_cons.mp hw with heq | hmem
        · subst heq
          exact acpBuildInputWallet_cnt calcHash dep tx i w hb
        · exact ih ws0 hr w hmem

/-- C2: if `AnyoneCanPayUnlocker::is_unlocked` answers `Ok(true)`, then
every output in the group pairs with exactly one group input carrying the
same optional type-script hash, and no group input pairs with more than
one group output. -/
theorem acp_is_unlocked_pairing (calcHash : Script → Bytes) (tx : Tx)
    (g : ScriptGroup) (dep : TxDepProvider) (ws : List InputWallet)
    (hws : acpBuildWallets calcHash dep tx g.inputIndices = .ok ws)
    (htrue : acpIsUnlocked calcHash tx g dep = .ok true) :
    (∀ o ∈ g.outputIndices, ∃ th oc ou,
      acpOutputRead calcHash tx o = .ok (th, oc, ou) ∧
      ws.countP (fun w => decide (w.typeHash = th)) = 1) ∧
    (∀ w ∈ ws,
      g.outputIndices.countP (acpOutputMatches calcHash tx w.typeHash) ≤ 1) := by
  unfold acpIsUnlocked at htrue
  cases hmc : acpMinCkb g.script.args with
  | error e => rw [hmc] at htrue; exact absurd htrue (by simp)
  | ok mc =>
    rw [hmc] at htrue
    cases hmu : acpMinUdt g.script.args with
    | error e => rw [hmu] at htrue; exact absurd htrue (by simp)
    | ok mu =>
      rw [hmu] at htrue
      rw [hws] at htrue
      obtain ⟨h1, h2⟩ :=
        acpCheckOutputs_true mc mu calcHash tx g.outputIndices ws htrue
      refine ⟨h1, ?_⟩
      intro w hw
      have hcnt := acpBuildWallets_cnt calcHash dep tx g.inputIndices ws hws w hw
      have := h2 w hw
      omega

/-- Witness for `acp_is_unlocked_pairing`: a one-input one-output group
with no type scripts and empty args unlocks, and the pairing counts hold. -/
theorem acp_is_unlocked_pairing_witness :
    (∀ o ∈ ([0] : List Nat), ∃ th oc ou,
      acpOutputRead (fun s => s.args)
        ⟨[], [⟨⟨[], 0⟩, 0⟩], [⟨100, ⟨[], 0, []⟩, none⟩], [[]], []⟩ o
        = .ok (th, oc, ou) ∧
      ([⟨none, 100, 0, 0⟩] : List InputWallet).countP
        (fun w => decide (w.typeHash = th)) = 1) ∧
    (∀ w ∈ ([⟨none, 100, 0, 0⟩] : List InputWallet),
      ([0] : List Nat).countP
        (acpOutputMatches (fun s => s.args)
          ⟨[], [⟨⟨[], 0⟩, 0⟩], [⟨100, ⟨[], 0, []⟩, none⟩], [[]], []⟩
          w.typeHash) ≤ 1) :=
  acp_is_unlocked_pairing (fun s => s.args)
    ⟨[], [⟨⟨[], 0⟩, 0⟩], [⟨100, ⟨[], 0, []⟩, none⟩], [[]], []⟩
    ⟨⟨[], 0, []⟩, [0], [0]⟩
    ⟨fun _ => some ⟨100, ⟨[], 0, []⟩, none⟩, fun _ => some []⟩
    [⟨none, 100, 0, 0⟩] rfl rfl

/-- The pairing conditions `is_unlocked` enforces: every group output pairs
with exactly one wallet of the same type hash, and every wallet pairs with
exactly one group output. -/
def acpPairingCounts (calcHash : Script → Bytes) (tx : Tx)
    (oIdxs : List Nat) (ws : List InputWallet) : Prop :=
  (∀ o ∈ oIdxs, ∃ th oc ou,
    acpOutputRead calcHash tx o = .ok (th, oc, ou) ∧
    ws.countP (fun w => decide (w.typeHash = th)) = 1) ∧
  (∀ w ∈ ws, oIdxs.countP (acpOutputMatches calcHash tx w.typeHash) = 1)

/-- Some group output pairs with a wallet of the same type hash that fails
the per-pair threshold/overflow check. -/
def acpHasFailingPair (mc mu : Nat) (calcHash : Script → Bytes) (tx : Tx)
    (oIdxs : List Nat) (ws : List InputWallet) : Prop :=
  ∃ o ∈ oIdxs, ∃ th oc ou,
    acpOutputRead calcHash tx o = .ok (th, oc, ou) ∧
    ∃ w ∈ ws, w.typeHash = th ∧
      acpPairCheck mc mu w.ckbAmount w.udtAmount oc ou = false

/-- Counterexample to C6 as stated: with `min_ckb = 1` and an input of ckb
amount `2^64 - 1`, the ckb addition overflows, yet the pair is accepted
through the udt dimension (udt threshold met, ckb unchanged) and
`is_unlocked` answers `Ok(true)`, not `Ok(false)`. -/
theorem acp_overflow_counterexample :
    acpIsUnlocked (fun s => s.args)
      ⟨[], [⟨⟨[], 0⟩, 0⟩], [⟨2 ^ 64 - 1, ⟨[], 0, []⟩, some ⟨[], 0, [5]⟩⟩],
        [List.replicate 16 0], []⟩
      ⟨⟨[], 0, List.replicate 21 0⟩, [0], [0]⟩
      ⟨fun _ => some ⟨2 ^ 64 - 1, ⟨[], 0, []⟩, some ⟨[], 0, [5]⟩⟩,
        fun _ => some (List.replicate 16 0)⟩ = .ok true ∧
    2 ^ 64 ≤ (2 ^ 64 - 1) + 1 ∧
    (Except.ok true : Except UnlockError Bool) ≠ .ok false := by
  refine ⟨by rfl, by decide, by simp⟩

/-- C6 (amended): once the argument minima parse, the input wallets build, and every
group output is readable, `AnyoneCanPayUnlocker::is_unlocked` never raises
an error — missing pairs, duplicated pairs, overflowing minima and
unmet thresholds all surface as `Ok(false)`. -/
theorem acp_rejects_as_false (calcHash : Script → Bytes) (tx : Tx)
    (g : ScriptGroup) (dep : TxDepProvider) (mc mu : Nat)
    (ws : List InputWallet)
    (hmc : acpMinCkb g.script.args = .ok mc)
    (hmu : acpMinUdt g.script.args = .ok mu)
    (hws : acpBuildWallets calcHash dep tx g.inputIndices = .ok ws)
    (hreads : ∀ o ∈ g.outputIndices, ∃ v, acpOutputRead calcHash tx o = .ok v) :
    ∃ b, acpIsUnlocked calcHash tx g dep = .ok b ∧
      (¬ acpPairingCounts calcHash tx g.outputIndices ws → b = false) ∧
      (acpHasFailingPair mc mu calcHash tx g.outputIndices ws → b = false) := by
  obtain ⟨b, hb⟩ := acpCheckOutputs_total mc mu calcHash tx g.outputIndices ws hreads
  have hres : acpIsUnlocked calcHash tx g dep = .ok b := by
    unfold acpIsUnlocked
    rw [hmc]
    dsimp only
    rw [hmu]
    dsimp only
    rw [hws]
    exact hb
  refine ⟨b, hres, ?_, ?_⟩
  · intro hnot
    cases b with
    | false => rfl
    | true =>
      exfalso
      apply hnot
      obtain ⟨h1, h2⟩ := acpCheckOutputs_true mc mu calcHash tx g.outputIndices ws hb
      refine ⟨h1, ?_⟩
      intro w hw
      have hcnt := acpBuildWallets_cnt calcHash dep tx g.inputIndices ws hws w hw
      have := h2 w hw
      omega
  · intro hfail
    exact acpCheckOutputs_failing mc mu calcHash tx g.outputIndices ws b hb hfail

/-- Witness for `acp_rejects_as_false` at a one-input one-output group. -/
theorem acp_rejects_as_false_witness :
    ∃ b, acpIsUnlocked (fun s => s.args)
        ⟨[], [⟨⟨[], 1⟩, 0⟩], [⟨50, ⟨[], 0, []⟩, none⟩], [[]], []⟩
        ⟨⟨[], 0, []⟩, [0], [0]⟩
        ⟨fun _ => some ⟨50, ⟨[], 0, []⟩, none⟩, fun _ => some []⟩ = .ok b ∧
      (¬ acpPairingCounts (fun s => s.args)
          ⟨[], [⟨⟨[], 1⟩, 0⟩], [⟨50, ⟨[], 0, []⟩, none⟩], [[]], []⟩
          [0] [⟨none, 50, 0, 0⟩] → b = false) ∧
      (acpHasFailingPair 0 0 (fun s => s.args)
          ⟨[], [⟨⟨[], 1⟩, 0⟩], [⟨50, ⟨[], 0, []⟩, none⟩], [[]], []⟩
          [0] [⟨none, 50, 0, 0⟩] → b = false) :=
  acp_rejects_as_false (fun s => s.args)
    ⟨[], [⟨⟨[], 1⟩, 0⟩], [⟨50, ⟨[], 0, []⟩, none⟩], [[]], []⟩
    ⟨⟨[], 0, []⟩, [0], [0]⟩
    ⟨fun _ => some ⟨50, ⟨[], 0, []⟩, none⟩, fun _ => some []⟩
    0 0 [⟨none, 50, 0, 0⟩] rfl rfl rfl
    (fun o ho => ⟨(none, 50, 0), by
      have : o = 0 := by simpa using ho
      subst this
      rfl⟩)

/-- Left-biased choice on options (`if r.is_none() { set } else { keep }`). -/
def optOr {α : Type} (a b : Option α) : Option α :=
  match a with
  | some x => some x
  | none => b

/-- The lock-hash 20-byte head of the cell an input spends, when the
dependency provider can fetch it. -/
def chequeLockHead (calcHash : Script → Bytes) (dep : TxDepProvider)
    (inp : CellInput) : Option Bytes :=
  (dep.getCell inp.previousOutput).map (fun o => (calcHash o.lock).take 20)

/-- The first enumerated input whose lock-hash head equals the receiver
hash, paired with its witness. -/
def chequeFindReceiver (calcHash : Script → Bytes) (dep : TxDepProvider)
    (tx : Tx) (receiverHash : Bytes) (l : List (Nat × CellInput)) :
    Option (Nat × Bytes) :=
  (l.find? (fun p =>
    decide (chequeLockHead calcHash dep p.2 = some receiverHash))).map
    (fun p => (p.1, tx.witnesses.getD p.1 []))

/-- The first enumerated input whose lock-hash head equals the sender hash
while not equalling the receiver hash (the receiver branch shadows the
sender branch), paired with its witness. -/
def chequeFindSender (calcHash : Script → Bytes) (dep : TxDepProvider)
    (tx : Tx) (receiverHash senderHash : Bytes) (l : List (Nat × CellInput)) :
    Option (Nat × Bytes) :=
  (l.find? (fun p =>
    decide (chequeLockHead calcHash dep p.2 = some senderHash ∧
      chequeLockHead calcHash dep p.2 ≠ some receiverHash))).map
    (fun p => (p.1, tx.witnesses.getD p.1 []))

/-- The input scan keeps the first receiver match and the first
sender-only match. -/
lemma chequeScan_spec (calcHash : Script → Bytes) (dep : TxDepProvider)
    (tx : Tx) (receiverHash senderHash : Bytes) :
    ∀ (l : List (Nat × CellInput)) (r0 s0 r s : Option (Nat × Bytes)),
      chequeScan calcHash dep tx receiverHash senderHash l r0 s0 = .ok (r, s) →
      r = optOr r0 (chequeFindReceiver calcHash dep tx receiverHash l) ∧
      s = optOr s0 (chequeFindSender calcHash dep tx receiverHash senderHash l) := by
  intro l
  induction l with
  | nil =>
    intro r0 s0 r s h
    simp only [chequeScan, Except.ok.injEq, Prod.mk.injEq] at h
    obtain ⟨h1, h2⟩ := h
    subst h1
    subst h2
    constructor <;>
    · simp only [chequeFindReceiver, chequeFindSender, List.find?_nil,
        Option.map_none']
      cases r0 <;> cases s0 <;> rfl
  | cons p rest ih =>
    intro r0 s0 r s h
    obtain ⟨idx, inp⟩ := p
    simp only [chequeScan] at h
    cases hc : dep.getCell inp.previousOutput with
    | none => rw [hc] at h; exact absurd h (by simp)
    | some output =>
      rw [hc] at h
      dsimp only at h
      have hlh : chequeLockHead calcHash dep inp
          = some ((calcHash output.lock).take 20) := by
        unfold chequeLockHead
        rw [hc]
        rfl
      have hlhr : ∀ b : Bytes, (chequeLockHead calcHash dep inp = some b)
          ↔ (calcHash output.lock).take 20 = b := by
        intro b
        rw [hlh]
        simp
      by_cases hr : (calcHash output.lock).take 20 = receiverHash
      · rw [if_pos hr] at h
        obtain ⟨ih1, ih2⟩ := ih _ s0 r s h
        have hfindR : List.find? (fun p : Nat × CellInput =>
            decide (chequeLockHead calcHash dep p.2 = some receiverHash))
            ((idx, inp) :: rest) = some (idx, inp) :=
          List.find?_cons_of_pos _ (by
            simp only [decide_eq_true_eq]
            exact (hlhr receiverHash).mpr hr)
        have hfindS : List.find? (fun p : Nat × CellInput =>
            decide (chequeLockHead calcHash dep p.2 = some senderHash ∧
              chequeLockHead calcHash dep p.2 ≠ some receiverHash))
            ((idx, inp) :: rest) = List.find? _ rest :=
          List.find?_cons_of_neg _ (by
            simp only [decide_eq_true_eq, not_and, not_not]
            intro _
            exact (hlhr receiverHash).mpr hr)
        constructor
        · rw [ih1]
          unfold chequeFindReceiver
          rw [hfindR]
          cases r0 <;> simp [optOr]
        · rw [ih2]
          unfold chequeFindSender
          rw [hfindS]
      · rw [if_neg hr] at h
        have hfindR : List.find? (fun p : Nat × CellInput =>
            decide (chequeLockHead calcHash dep p.2 = some receiverHash))
            ((idx, inp) :: rest) = List.find? _ rest :=
          List.find?_cons_of_neg _ (by
            simp only [decide_eq_true_eq]
            intro hc'
            exact hr ((hlhr receiverHash).mp hc'))
        by_cases hs : (calcHash output.lock).take 20 = senderHash
        · rw [if_pos hs] at h
          obtain ⟨ih1, ih2⟩ := ih r0 _ r s h
          have hfindS : List.find? (fun p : Nat × CellInput =>
              decide (chequeLockHead calcHash dep p.2 = some senderHash ∧
                chequeLockHead calcHash dep p.2 ≠ some receiverHash))
              ((idx, inp) :: rest) = some (idx, inp) :=
            List.find?_cons_of_pos _ (by
              simp only [decide_eq_true_eq]
              refine ⟨(hlhr senderHash).mpr hs, ?_⟩
              intro hc'
              exact hr ((hlhr receiverHash).mp hc'))
          constructor
          · rw [ih1]
            unfold chequeFindReceiver
            rw [hfindR]
          · rw [ih2]
            unfold chequeFindSender
            rw [hfindS]
            cases s0 <;> simp [optOr]
        · rw [if_neg hs] at h
          obtain ⟨ih1, ih2⟩ := ih r0 s0 r s h
          have hfindS : List.find? (fun p : Nat × CellInput =>
              decide (chequeLockHead calcHash dep p.2 = some senderHash ∧
                chequeLockHead calcHash dep p.2 ≠ some receiverHash))
              ((idx, inp) :: rest) = List.find? _ rest :=
            List.find?_cons_of_neg _ (by
              simp only [decide_eq_true_eq, not_and]
              intro hc'
              exact absurd ((hlhr senderHash).mp hc') hs)
          constructor
          · rw [ih1]
            unfold chequeFindReceiver
            rw [hfindR]
          · rw [ih2]
            unfold chequeFindSender
            rw [hfindS]

/-- Case analysis of the witness check. -/
lemma chequeWitnessCheck_spec (parseWA : Bytes → Option WitnessArgs)
    (w : Bytes) :
    (chequeWitnessCheck parseWA w = .ok true ↔
      ∃ wa, parseWA w = some wa ∧ wa.lock.isSome = true) ∧
    (chequeWitnessCheck parseWA w = .ok true ∨
      chequeWitnessCheck parseWA w = .error .other) := by
  unfold chequeWitnessCheck
  cases hp : parseWA w with
  | none =>
    exact ⟨by simp, Or.inr rfl⟩
  | some wa =>
    cases hl : wa.lock with
    | none =>
      refine ⟨by simp [hl], Or.inr (by simp [hl])⟩
    | some lk =>
      refine ⟨by simp [hl], Or.inl (by simp [hl])⟩

/-- The claim/withdraw dispatch that follows the input scan in
`ChequeUnlocker::is_unlocked` (lines 392-453). -/
def chequeDispatch (parseWA : Bytes → Option WitnessArgs)
    (sinceList : List Nat) (r s : Option (Nat × Bytes)) :
    Except UnlockError Bool :=
  match r with
  | some (_, witness) =>
    if sinceList.any (fun x => x ≠ chequeClaimSince) then .error .other
    else chequeWitnessCheck parseWA witness
  | none =>
    match s with
    | some (_, witness) =>
      if sinceList.any (fun x => x ≠ chequeWithdrawSince) then .error .other
      else chequeWitnessCheck parseWA witness
    | none => .ok false

/-- Reduce `chequeIsUnlocked` through its guard and scan. -/
lemma chequeIsUnlocked_eq (calcHash : Script → Bytes)
    (parseWA : Bytes → Option WitnessArgs) (tx : Tx) (g : ScriptGroup)
    (dep : TxDepProvider) (r s : Option (Nat × Bytes))
    (h40 : g.script.args.length = 40)
    (hscan : chequeScan calcHash dep tx (g.script.args.take 20)
      ((g.script.args.drop 20).take 20) tx.inputs.enum none none = .ok (r, s)) :
    chequeIsUnlocked calcHash parseWA tx g dep =
      chequeDispatch parseWA
        (g.inputIndices.map (fun i => (tx.inputs.getD i defaultCellInput).since))
        r s := by
  unfold chequeIsUnlocked chequeDispatch
  rw [if_neg (by rw [h40]; simp)]
  simp only [hscan]

/-- When every group input has the path's required since value, the
`any`-check in `is_unlocked` is false. -/
lemma cheque_any_since_false (tx : Tx) (idxs : List Nat) (v : Nat)
    (hall : ∀ j ∈ idxs, (tx.inputs.getD j defaultCellInput).since = v) :
    (idxs.map (fun i => (tx.inputs.getD i defaultCellInput).since)).any
      (fun x => x ≠ v) = false := by
  rw [List.any_map, List.any_eq_false]
  intro j hj
  simp only [Function.comp_apply, ne_eq, decide_eq_true_eq, Decidable.not_not]
  exact hall j hj

/-- C3: the cheque unlocker scans for the first receiver-hash match (claim
path, requiring all group sinces zero) with priority over the first
sender-hash match (withdraw path, requiring all group sinces equal to the
6-epoch relative since); with no match it answers `Ok(false)`. -/
theorem cheque_is_unlocked_paths (calcHash : Script → Bytes)
    (parseWA : Bytes → Option WitnessArgs) (tx : Tx) (g : ScriptGroup)
    (dep : TxDepProvider) (r s : Option (Nat × Bytes))
    (h40 : g.script.args.length = 40)
    (hin : ∀ i ∈ g.inputIndices, i < tx.inputs.length)
    (hscan : chequeScan calcHash dep tx (g.script.args.take 20)
      ((g.script.args.drop 20).take 20) tx.inputs.enum none none = .ok (r, s)) :
    r = chequeFindReceiver calcHash dep tx (g.script.args.take 20)
      tx.inputs.enum ∧
    s = chequeFindSender calcHash dep tx (g.script.args.take 20)
      ((g.script.args.drop 20).take 20) tx.inputs.enum ∧
    (∀ i w, r = some (i, w) →
      chequeIsUnlocked calcHash parseWA tx g dep = .ok true →
      ∀ j ∈ g.inputIndices, ∃ inp, tx.inputs.get? j = some inp ∧
        inp.since = chequeClaimSince) ∧
    (r = none → ∀ i w, s = some (i, w) →
      chequeIsUnlocked calcHash parseWA tx g dep = .ok true →
      ∀ j ∈ g.inputIndices, ∃ inp, tx.inputs.get? j = some inp ∧
        inp.since = chequeWithdrawSince) ∧
    (r = none → s = none →
      chequeIsUnlocked calcHash parseWA tx g dep = .ok false) := by
  obtain ⟨hr, hs⟩ := chequeScan_spec calcHash dep tx (g.script.args.take 20)
    ((g.script.args.drop 20).take 20) tx.inputs.enum none none r s hscan
  have heq := chequeIsUnlocked_eq calcHash parseWA tx g dep r s h40 hscan
  refine ⟨by simpa [optOr] using hr, by simpa [optOr] using hs, ?_, ?_, ?_⟩
  · intro i w hri htrue
    rw [hri] at heq
    rw [heq] at htrue
    simp only [chequeDispatch] at htrue
    intro j hj
    by_cases hany : (g.inputIndices.map
        (fun i => (tx.inputs.getD i defaultCellInput).since)).any
        (fun x => x ≠ chequeClaimSince) = true
    · rw [if_pos hany] at htrue
      exact absurd htrue (by simp)
    · have : (tx.inputs.getD j defaultCellInput).since = chequeClaimSince := by
        simp only [Bool.not_eq_true] at hany
        rw [List.any_map, List.any_eq_false] at hany
        have hj' := hany j hj
        simp only [Function.comp_apply, ne_eq, decide_eq_true_eq,
          Decidable.not_not] at hj'
        exact hj'
      rcases List.get?_eq_get (hin j hj) with hget
      refine ⟨tx.inputs.get ⟨j, hin j hj⟩, hget, ?_⟩
      rw [List.getD_eq_get _ _ (hin j hj)] at this
      exact this
  · intro hrn i w hsi htrue
    rw [hrn] at heq
    rw [hsi] at heq
    rw [heq] at htrue
    simp only [chequeDispatch] at htrue
    intro j hj
    by_cases hany : (g.inputIndices.map
        (fun i => (tx.inputs.getD i defaultCellInput).since)).any
        (fun x => x ≠ chequeWithdrawSince) = true
    · rw [if_pos hany] at htrue
      exact absurd htrue (by simp)
    · have : (tx.inputs.getD j defaultCellInput).since = chequeWithdrawSince := by
        simp only [Bool.not_eq_true] at hany
        rw [List.any_map, List.any_eq_false] at hany
        have hj' := hany j hj
        simp only [Function.comp_apply, ne_eq, decide_eq_true_eq,
          Decidable.not_not] at hj'
        exact hj'
      rcases List.get?_eq_get (hin j hj) with hget
      refine ⟨tx.inputs.get ⟨j, hin j hj⟩, hget, ?_⟩
      rw [List.getD_eq_get _ _ (hin j hj)] at this
      exact this
  · intro hrn hsn
    rw [hrn, hsn] at heq
    exact heq.trans rfl

/-- C9: on a matched claim or withdraw path whose since conditions hold,
the cheque unlocker answers `Ok(true)` exactly when the matched input's
witness parses as `WitnessArgs` with a present lock field, and raises an
error (never `Ok(false)`) otherwise. -/
theorem cheque_witness_requirements (calcHash : Script → Bytes)
    (parseWA : Bytes → Option WitnessArgs) (tx : Tx) (g : ScriptGroup)
    (dep : TxDepProvider) (r s : Option (Nat × Bytes))
    (h40 : g.script.args.length = 40)
    (hscan : chequeScan calcHash dep tx (g.script.args.take 20)
      ((g.script.args.drop 20).take 20) tx.inputs.enum none none = .ok (r, s)) :
    (∀ i w, r = some (i, w) →
      (∀ j ∈ g.inputIndices,
        (tx.inputs.getD j defaultCellInput).since = chequeClaimSince) →
      (chequeIsUnlocked calcHash parseWA tx g dep = .ok true ↔
        ∃ wa, parseWA w = some wa ∧ wa.lock.isSome = true) ∧
      ((¬ ∃ wa, parseWA w = some wa ∧ wa.lock.isSome = true) →
        chequeIsUnlocked calcHash parseWA tx g dep = .error .other)) ∧
    (r = none → ∀ i w, s = some (i, w) →
      (∀ j ∈ g.inputIndices,
        (tx.inputs.getD j defaultCellInput).since = chequeWithdrawSince) →
      (chequeIsUnlocked calcHash parseWA tx g dep = .ok true ↔
        ∃ wa, parseWA w = some wa ∧ wa.lock.isSome = true) ∧
      ((¬ ∃ wa, parseWA w = some wa ∧ wa.lock.isSome = true) →
        chequeIsUnlocked calcHash parseWA tx g dep = .error .other)) := by
  have heq := chequeIsUnlocked_eq calcHash parseWA tx g dep r s h40 hscan
  constructor
  · intro i w hri hsince
    rw [hri] at heq
    simp only [chequeDispatch] at heq
    rw [cheque_any_since_false tx g.inputIndices chequeClaimSince hsince] at heq
    rw [if_neg (by simp)] at heq
    rw [heq]
    obtain ⟨hiff, hcases⟩ := chequeWitnessCheck_spec parseWA w
    refine ⟨hiff, ?_⟩
    intro hno
    rcases hcases with hc | hc
    · exact absurd (hiff.mp hc) hno
    · exact hc
  · intro hrn i w hsi hsince
    rw [hrn, hsi] at heq
    simp only [chequeDispatch] at heq
    rw [cheque_any_since_false tx g.inputIndices chequeWithdrawSince hsince] at heq
    rw [if_neg (by simp)] at heq
    rw [heq]
    obtain ⟨hiff, hcases⟩ := chequeWitnessCheck_spec parseWA w
    refine ⟨hiff, ?_⟩
    intro hno
    rcases hcases with hc | hc
    · exact absurd (hiff.mp hc) hno
    · exact hc

/-- Witness for `cheque_is_unlocked_paths`: with no matching input the
cheque unlocker answers `Ok(false)`. -/
theorem cheque_is_unlocked_paths_witness :
    chequeIsUnlocked (fun s => s.args) (fun _ => none)
      ⟨[], [⟨⟨[], 0⟩, 0⟩], [], [], [[1]]⟩
      ⟨⟨[], 0, List.replicate 20 1 ++ List.replicate 20 2⟩, [0], []⟩
      ⟨fun _ => some ⟨100, ⟨[], 0, List.replicate 20 9⟩, none⟩,
        fun _ => some []⟩ = .ok false :=
  (cheque_is_unlocked_paths (fun s => s.args) (fun _ => none)
    ⟨[], [⟨⟨[], 0⟩, 0⟩], [], [], [[1]]⟩
    ⟨⟨[], 0, List.replicate 20 1 ++ List.replicate 20 2⟩, [0], []⟩
    ⟨fun _ => some ⟨100, ⟨[], 0, List.replicate 20 9⟩, none⟩,
      fun _ => some []⟩
    none none (by decide) (by decide) (by rfl)).2.2.2.2 rfl rfl

/-- Witness for `cheque_witness_requirements`: a claim-path match with all
group sinces zero but an unparseable witness makes the unlocker error. -/
theorem cheque_witness_requirements_witness :
    chequeIsUnlocked (fun s => s.args) (fun _ => none)
      ⟨[], [⟨⟨[], 0⟩, 0⟩], [], [], [[1]]⟩
      ⟨⟨[], 0, List.replicate 20 1 ++ List.replicate 20 2⟩, [0], []⟩
      ⟨fun _ => some ⟨100, ⟨[], 0, List.replicate 20 1⟩, none⟩,
        fun _ => some []⟩ = .error .other :=
  ((cheque_witness_requirements (fun s => s.args) (fun _ => none)
    ⟨[], [⟨⟨[], 0⟩, 0⟩], [], [], [[1]]⟩
    ⟨⟨[], 0, List.replicate 20 1 ++ List.replicate 20 2⟩, [0], []⟩
    ⟨fun _ => some ⟨100, ⟨[], 0, List.replicate 20 1⟩, none⟩,
      fun _ => some []⟩
    (some (0, [1])) none (by decide) (by rfl)).1 0 [1] rfl
    (by decide)).2 (by simp)

/-- The udt receiver loop only appends to the accumulated inputs, outputs
and data. -/
lemma udtReceiversLoop_prefix {σ : Type}
    (occupied : Script → Option Script → Nat → Nat) (ts : Script)
    (collect : Collector σ) (resolver : DepResolver) :
    ∀ (rs : List UdtTargetReceiver) (s : σ) (deps : List CellDep)
      (ins : List CellInput) (outs : List CellOutput) (datas : List Bytes)
      (tx : Tx) (sF : σ),
      udtReceiversLoop occupied ts collect resolver s rs deps ins outs datas
        = .ok (tx, sF) →
      ∃ insR outsR datasR, tx.inputs = ins ++ insR ∧
        tx.outputs = outs ++ outsR ∧ tx.outputsData = datas ++ datasR := by
  intro rs
  induction rs with
  | nil =>
    intro s deps ins outs datas tx sF h
    simp only [udtReceiversLoop, Except.ok.injEq, Prod.mk.injEq] at h
    obtain ⟨h1, _⟩ := h
    subst h1
    exact ⟨[], [], [], by simp, by simp, by simp⟩
  | cons r rest ih =>
    intro s deps ins outs datas tx sF h
    simp only [udtReceiversLoop] at h
    cases hb : udtReceiverBuild occupied r ts collect s resolver with
    | error e => rw [hb] at h; exact absurd h (by simp)
    | ok p =>
      obtain ⟨built, s'⟩ := p
      rw [hb] at h
      dsimp only at h
      obtain ⟨insR, outsR, datasR, h1, h2, h3⟩ := ih s' _ _ _ _ tx sF h
      refine ⟨(match built.input with
               | some i => [i]
               | none => []) ++ insR, [built.output] ++ outsR,
              [built.outputData] ++ datasR, ?_, ?_, ?_⟩
      · rw [h1, List.append_assoc]
      · rw [h2, List.append_assoc]
      · rw [h3, List.append_assoc]

/-- C8: `UdtTargetReceiver::build` — a `Create` with a too-small supplied
capacity fails with an `Other` error; otherwise `Create` emits a fresh cell
with the supplied (or computed occupied) capacity whose data is the 16-byte
little-endian amount followed by the extra data; `Update` keeps the found
cell's output and rewrites only the first 16 data bytes to the old amount
plus the receiver amount. -/
theorem udt_receiver_build {σ : Type}
    (occupied : Script → Option Script → Nat → Nat) (r : UdtTargetReceiver)
    (ts : Script) (collect : Collector σ) (s : σ) (resolver : DepResolver) :
    (r.action = .create → ∀ cap, r.capacity = some cap →
      cap < occupied r.lockScript (some ts)
        ((r.extraData.map List.length).getD 0 + 16) →
      udtReceiverBuild occupied r ts collect s resolver = .error .other) ∧
    (r.action = .create → ∀ cap, r.capacity = some cap →
      cap ≥ occupied r.lockScript (some ts)
        ((r.extraData.map List.length).getD 0 + 16) →
      udtReceiverBuild occupied r ts collect s resolver =
        .ok (⟨none, none, ⟨cap, r.lockScript, some ts⟩,
          toLeBytes16 r.amount ++ r.extraData.getD []⟩, s)) ∧
    (r.action = .create → r.capacity = none →
      udtReceiverBuild occupied r ts collect s resolver =
        .ok (⟨none, none,
          ⟨occupied r.lockScript (some ts)
            ((r.extraData.map List.length).getD 0 + 16),
           r.lockScript, some ts⟩,
          toLeBytes16 r.amount ++ r.extraData.getD []⟩, s)) ∧
    (r.action = .update →
      ∀ c cs cap s', collect s ⟨r.lockScript, some ts, some (.newMin 16)⟩
        = ((c :: cs, cap), s') →
      16 ≤ c.outputData.length →
      ∀ d, resolver (ScriptId.ofScript r.lockScript) = some d →
      udtReceiverBuild occupied r ts collect s resolver =
        .ok (⟨some ⟨c.outPoint, 0⟩, some d, c.output,
          toLeBytes16 (fromLeBytes (c.outputData.take 16) + r.amount)
            ++ c.outputData.drop 16⟩, s')) := by
  refine ⟨?_, ?_, ?_, ?_⟩
  · intro ha cap hcap hlt
    unfold udtReceiverBuild
    rw [ha]
    dsimp only
    rw [hcap]
    dsimp only
    rw [if_neg (by omega)]
  · intro ha cap hcap hge
    unfold udtReceiverBuild
    rw [ha]
    dsimp only
    rw [hcap]
    dsimp only
    rw [if_pos hge]
  · intro ha hcap
    unfold udtReceiverBuild
    rw [ha]
    dsimp only
    rw [hcap]
  · intro ha c cs cap s' hcollect _h16 d hres
    unfold udtReceiverBuild
    rw [ha]
    dsimp only
    rw [hcollect]
    dsimp only
    rw [hres]

/-- Witness for `udt_receiver_build`: a concrete `Create` and a concrete
`Update`. -/
theorem udt_receiver_build_witness :
    udtReceiverBuild (fun _ _ _ => 20) ⟨.create, ⟨[], 0, []⟩, some 30, 5, none⟩
      ⟨[], 1, []⟩ (fun (s : Unit) _ => (([], 0), s)) () (fun _ => none) =
      .ok (⟨none, none, ⟨30, ⟨[], 0, []⟩, some ⟨[], 1, []⟩⟩,
        toLeBytes16 5 ++ []⟩, ()) ∧
    udtReceiverBuild (fun _ _ _ => 20) ⟨.update, ⟨[], 0, []⟩, none, 5, none⟩
      ⟨[], 1, []⟩
      (fun (s : Unit) _ =>
        (([⟨⟨[], 0⟩, ⟨40, ⟨[], 0, []⟩, some ⟨[], 1, []⟩⟩,
           List.replicate 16 0, 0, 0⟩], 40), s))
      () (fun _ => some ⟨3⟩) =
      .ok (⟨some ⟨⟨[], 0⟩, 0⟩, some ⟨3⟩, ⟨40, ⟨[], 0, []⟩, some ⟨[], 1, []⟩⟩,
        toLeBytes16 (fromLeBytes ((List.replicate 16 (0 : Nat)).take 16) + 5)
          ++ (List.replicate 16 (0 : Nat)).drop 16⟩, ()) := by
  constructor
  · exact (udt_receiver_build (fun _ _ _ => 20)
      ⟨.create, ⟨[], 0, []⟩, some 30, 5, none⟩ ⟨[], 1, []⟩
      (fun (s : Unit) _ => (([], 0), s)) () (fun _ => none)).2.1
      rfl 30 rfl (by decide)
  · exact (udt_receiver_build (fun _ _ _ => 20)
      ⟨.update, ⟨[], 0, []⟩, none, 5, none⟩ ⟨[], 1, []⟩
      (fun (s : Unit) _ =>
        (([⟨⟨[], 0⟩, ⟨40, ⟨[], 0, []⟩, some ⟨[], 1, []⟩⟩,
           List.replicate 16 0, 0, 0⟩], 40), s))
      () (fun _ => some ⟨3⟩)).2.2.2
      rfl ⟨⟨[], 0⟩, ⟨40, ⟨[], 0, []⟩, some ⟨[], 1, []⟩⟩,
        List.replicate 16 0, 0, 0⟩ [] 40 () rfl (by decide) ⟨3⟩ rfl

/-- Counterexample to C1 as stated: with the collector finding a sender
cell of udt amount 0 against a receiver total of 1, but no resolvable
cell-deps, `build_base` fails with `ResolveCellDepFailed` — not with the
`Other` error the claim promises (dep resolution precedes the amount
check). -/
theorem udt_transfer_other_error_counterexample :
    udtTransferBuildBase (fun _ _ _ => 0)
      ⟨⟨[], 0, []⟩, ⟨[], 0, []⟩, [⟨.create, ⟨[], 0, []⟩, some 0, 1, none⟩]⟩
      (fun (s : Unit) _ =>
        (([⟨⟨[], 0⟩, ⟨0, ⟨[], 0, []⟩, none⟩, List.replicate 16 0, 0, 0⟩], 0), s))
      () (fun _ => none)
      = .error (.resolveCellDepFailed ⟨[], 0⟩) ∧
    fromLeBytes ((List.replicate 16 (0 : Nat)).take 16) < 1 ∧
    TxBuilderError.resolveCellDepFailed ⟨[], 0⟩ ≠ .other := by
  refine ⟨by rfl, by decide, by simp⟩

/-- C1 (amended): when the collector finds a sender cell and both the
sender-lock and udt-type cell-deps resolve, a sender amount below the
receiver total fails with an `Other` error (with an unresolvable dep it
fails with `ResolveCellDepFailed`); and any successfully built transaction
has the sender's cell as its first output, its data holding the remainder
in the first 16 little-endian bytes with the remaining bytes unchanged. -/
theorem udt_transfer_conservation {σ : Type}
    (occupied : Script → Option Script → Nat → Nat) (b : UdtTransferBuilder)
    (collect : Collector σ) (s : σ) (resolver : DepResolver)
    (senderCell : LiveCell) (restCells : List LiveCell) (totalCap : Nat)
    (s₁ : σ)
    (hc : collect s ⟨b.sender, some b.typeScript, some (.newMin 16)⟩
      = ((senderCell :: restCells, totalCap), s₁))
    (_hlen : 16 ≤ senderCell.outputData.length) :
    (∀ d1, resolver (ScriptId.ofScript b.sender) = some d1 →
     ∀ d2, resolver (ScriptId.ofScript b.typeScript) = some d2 →
      fromLeBytes (senderCell.outputData.take 16)
        < (b.receivers.map (fun r => r.amount)).sum →
      udtTransferBuildBase occupied b collect s resolver = .error .other) ∧
    ((resolver (ScriptId.ofScript b.sender) = none ∨
      resolver (ScriptId.ofScript b.typeScript) = none) →
      ∃ sid, udtTransferBuildBase occupied b collect s resolver
        = .error (.resolveCellDepFailed sid)) ∧
    (∀ tx sF, udtTransferBuildBase occupied b collect s resolver
        = .ok (tx, sF) →
      tx.outputs.head? = some senderCell.output ∧
      tx.outputsData.head? = some
        (toLeBytes16 (fromLeBytes (senderCell.outputData.take 16)
          - (b.receivers.map (fun r => r.amount)).sum)
          ++ senderCell.outputData.drop 16)) := by
  refine ⟨?_, ?_, ?_⟩
  · intro d1 hd1 d2 hd2 hlt
    unfold udtTransferBuildBase
    dsimp only
    rw [hc]
    dsimp only
    rw [hd1]
    dsimp only
    rw [hd2]
    dsimp only
    rw [if_pos hlt]
  · intro hnone
    unfold udtTransferBuildBase
    dsimp only
    rw [hc]
    dsimp only
    rcases hnone with hn | hn
    · rw [hn]
      exact ⟨_, rfl⟩
    · cases hd1 : resolver (ScriptId.ofScript b.sender) with
      | none => exact ⟨_, rfl⟩
      | some d1 =>
        dsimp only
        rw [hn]
        exact ⟨_, rfl⟩
  · intro tx sF hok
    unfold udtTransferBuildBase at hok
    dsimp only at hok
    rw [hc] at hok
    dsimp only at hok
    cases hd1 : resolver (ScriptId.ofScript b.sender) with
    | none => rw [hd1] at hok; exact absurd hok (by simp)
    | some d1 =>
      rw [hd1] at hok
      dsimp only at hok
      cases hd2 : resolver (ScriptId.ofScript b.typeScript) with
      | none => rw [hd2] at hok; exact absurd hok (by simp)
      | some d2 =>
        rw [hd2] at hok
        dsimp only at hok
        by_cases hlt : fromLeBytes (senderCell.outputData.take 16)
            < (b.receivers.map (fun r => r.amount)).sum
        · rw [if_pos hlt] at hok
          exact absurd hok (by simp)
        · rw [if_neg hlt] at hok
          obtain ⟨insR, outsR, datasR, _, h2, h3⟩ :=
            udtReceiversLoop_prefix occupied b.typeScript collect resolver
              b.receivers s₁ _ _ _ _ tx sF hok
          constructor
          · rw [h2]
            rfl
          · rw [h3]
            rfl

/-- Witness for `udt_transfer_conservation`: a concrete successful
transfer keeps the remainder on the sender output. -/
theorem udt_transfer_conservation_witness :
    ∃ tx sF, udtTransferBuildBase (fun _ _ _ => 0)
      ⟨⟨[], 0, []⟩, ⟨[], 1, []⟩, [⟨.create, ⟨[], 2, []⟩, none, 3, none⟩]⟩
      (fun (s : Unit) _ =>
        (([⟨⟨[], 0⟩, ⟨500, ⟨[], 1, []⟩, some ⟨[], 0, []⟩⟩,
           7 :: List.replicate 15 0, 0, 0⟩], 500), s))
      () (fun _ => some ⟨9⟩) = .ok (tx, sF) ∧
    tx.outputs.head? = some ⟨500, ⟨[], 1, []⟩, some ⟨[], 0, []⟩⟩ ∧
    tx.outputsData.head? = some
      (toLeBytes16 (fromLeBytes ((7 :: List.replicate 15 (0 : Nat)).take 16) - 3)
        ++ (7 :: List.replicate 15 (0 : Nat)).drop 16) := by
  refine ⟨⟨[⟨9⟩], [⟨⟨[], 0⟩, 0⟩],
    [⟨500, ⟨[], 1, []⟩, some ⟨[], 0, []⟩⟩, ⟨0, ⟨[], 2, []⟩, some ⟨[], 0, []⟩⟩],
    [toLeBytes16 4 ++ [], toLeBytes16 3 ++ []], []⟩, (), ?_, ?_, ?_⟩
  · rfl
  · exact ((udt_transfer_conservation (fun _ _ _ => 0)
      ⟨⟨[], 0, []⟩, ⟨[], 1, []⟩, [⟨.create, ⟨[], 2, []⟩, none, 3, none⟩]⟩
      (fun (s : Unit) _ =>
        (([⟨⟨[], 0⟩, ⟨500, ⟨[], 1, []⟩, some ⟨[], 0, []⟩⟩,
           7 :: List.replicate 15 0, 0, 0⟩], 500), s))
      () (fun _ => some ⟨9⟩)
      ⟨⟨[], 0⟩, ⟨500, ⟨[], 1, []⟩, some ⟨[], 0, []⟩⟩,
        7 :: List.replicate 15 0, 0, 0⟩ [] 500 () rfl (by decide)).2.2
      _ _ (by rfl)).1
  · exact ((udt_transfer_conservation (fun _ _ _ => 0)
      ⟨⟨[], 0, []⟩, ⟨[], 1, []⟩, [⟨.create, ⟨[], 2, []⟩, none, 3, none⟩]⟩
      (fun (s : Unit) _ =>
        (([⟨⟨[], 0⟩, ⟨500, ⟨[], 1, []⟩, some ⟨[], 0, []⟩⟩,
           7 :: List.replicate 15 0, 0, 0⟩], 500), s))
      () (fun _ => some ⟨9⟩)
      ⟨⟨[], 0⟩, ⟨500, ⟨[], 1, []⟩, some ⟨[], 0, []⟩⟩,
        7 :: List.replicate 15 0, 0, 0⟩ [] 500 () rfl (by decide)).2.2
      _ _ (by rfl)).2

/-- The acp receiver loop only appends to the accumulated inputs, outputs
and data. -/
lemma acpReceiversLoop_prefix {σ : Type} (collect : Collector σ)
    (resolver : DepResolver) :
    ∀ (rs : List AcpTransferReceiver) (s : σ) (deps : List CellDep)
      (ins : List CellInput) (outs : List CellOutput) (datas : List Bytes)
      (tx : Tx) (sF : σ),
      acpReceiversLoop collect resolver s rs deps ins outs datas
        = .ok (tx, sF) →
      ∃ insR outsR datasR, tx.inputs = ins ++ insR ∧
        tx.outputs = outs ++ outsR ∧ tx.outputsData = datas ++ datasR := by
  intro rs
  induction rs with
  | nil =>
    intro s deps ins outs datas tx sF h
    simp only [acpReceiversLoop, Except.ok.injEq, Prod.mk.injEq] at h
    obtain ⟨h1, _⟩ := h
    subst h1
    exact ⟨[], [], [], by simp, by simp, by simp⟩
  | cons r rest ih =>
    intro s deps ins outs datas tx sF h
    simp only [acpReceiversLoop] at h
    cases hcell : (collect s (CellQueryOptions.newLock r.lockScript)).1.1 with
    | nil => rw [hcell] at h; exact absurd h (by simp)
    | cons c cs =>
      rw [hcell] at h
      dsimp only at h
      cases hld : resolver (ScriptId.ofScript r.lockScript) with
      | none => rw [hld] at h; exact absurd h (by simp)
      | some lockDep =>
        rw [hld] at h
        dsimp only at h
        rcases hdf : (match c.output.typeScript with
          | some typeScript =>
            match resolver (ScriptId.ofScript typeScript) with
            | none => Except.error
                (TxBuilderError.resolveCellDepFailed (ScriptId.ofScript typeScript))
            | some typeCellDep => Except.ok (insertDep (insertDep deps lockDep) typeCellDep)
          | none => Except.ok (insertDep deps lockDep)) with
          e | deps'
        · rw [hdf] at h
          exact absurd h (by simp)
        · rw [hdf] at h
          dsimp only at h
          obtain ⟨insR, outsR, datasR, h1, h2, h3⟩ := ih _ _ _ _ _ tx sF h
          refine ⟨[⟨c.outPoint, 0⟩] ++ insR,
            [{ c.output with capacity :=
                (collect s (CellQueryOptions.newLock r.lockScript)).1.2
                  + r.capacity }] ++ outsR,
            [c.outputData] ++ datasR, ?_, ?_, ?_⟩
          · rw [h1, List.append_assoc]
          · rw [h2, List.append_assoc]
          · rw [h3, List.append_assoc]

/-- Counterexample to C5 as stated: when the collector returns two cells
(total reported capacity 150), the built output's capacity is the reported
total plus the requested delta (150 + 7 = 157), not the first input cell's
capacity plus the delta (100 + 7 = 107). -/
theorem acp_transfer_capacity_counterexample :
    acpTransferBuildBase ⟨[⟨⟨[], 0, []⟩, 7⟩]⟩
      (fun (s : Unit) _ =>
        (([⟨⟨[], 0⟩, ⟨100, ⟨[], 0, []⟩, none⟩, [], 0, 0⟩,
           ⟨⟨[], 1⟩, ⟨50, ⟨[], 0, []⟩, none⟩, [], 0, 0⟩], 150), s))
      () (fun _ => some ⟨0⟩)
      = .ok (⟨[⟨0⟩], [⟨⟨[], 0⟩, 0⟩], [⟨157, ⟨[], 0, []⟩, none⟩], [[]], []⟩, ())
    ∧ (157 : Nat) ≠ 100 + 7 := by
  exact ⟨by rfl, by decide⟩

/-- C5 (amended): for each receiver, an empty collection fails with an
`Other` error; otherwise the first collected cell becomes the input, and
the corresponding output is that cell's output with only the capacity
changed to the collector-reported total capacity plus the requested
capacity (equal to the input cell's capacity plus the requested capacity
whenever the collector returns exactly that one cell), with the output
data equal to the input cell's data. -/
theorem acp_transfer_build {σ : Type} (collect : Collector σ)
    (resolver : DepResolver) (b : AcpTransferBuilder) (s0 : σ)
    (r : AcpTransferReceiver) (rs : List AcpTransferReceiver) (s : σ)
    (deps : List CellDep) (ins : List CellInput) (outs : List CellOutput)
    (datas : List Bytes) :
    (acpTransferBuildBase b collect s0 resolver
      = acpReceiversLoop collect resolver s0 b.receivers [] [] [] []) ∧
    (∀ cap s', collect s (CellQueryOptions.newLock r.lockScript)
        = (([], cap), s') →
      acpReceiversLoop collect resolver s (r :: rs) deps ins outs datas
        = .error .other) ∧
    (∀ c cs total s', collect s (CellQueryOptions.newLock r.lockScript)
        = ((c :: cs, total), s') →
      ∀ tx sF, acpReceiversLoop collect resolver s (r :: rs) deps ins outs datas
        = .ok (tx, sF) →
      ∃ insR outsR datasR,
        tx.inputs = ins ++ ⟨c.outPoint, 0⟩ :: insR ∧
        tx.outputs = outs
          ++ { c.output with capacity := total + r.capacity } :: outsR ∧
        tx.outputsData = datas ++ c.outputData :: datasR) := by
  refine ⟨rfl, ?_, ?_⟩
  · intro cap s' hcollect
    simp only [acpReceiversLoop]
    rw [hcollect]
  · intro c cs total s' hcollect tx sF h
    simp only [acpReceiversLoop] at h
    rw [hcollect] at h
    dsimp only at h
    cases hld : resolver (ScriptId.ofScript r.lockScript) with
    | none => rw [hld] at h; exact absurd h (by simp)
    | some lockDep =>
      rw [hld] at h
      dsimp only at h
      rcases hdf : (match c.output.typeScript with
        | some typeScript =>
          match resolver (ScriptId.ofScript typeScript) with
          | none => Except.error
              (TxBuilderError.resolveCellDepFailed (ScriptId.ofScript typeScript))
          | some typeCellDep => Except.ok (insertDep (insertDep deps lockDep) typeCellDep)
        | none => Except.ok (insertDep deps lockDep)) with
        e | deps'
      · rw [hdf] at h
        exact absurd h (by simp)
      · rw [hdf] at h
        dsimp only at h
        obtain ⟨insR, outsR, datasR, h1, h2, h3⟩ :=
          acpReceiversLoop_prefix collect resolver rs _ _ _ _ _ tx sF h
        refine ⟨insR, outsR, datasR, ?_, ?_, ?_⟩
        · rw [h1, List.append_assoc]
          rfl
        · rw [h2, List.append_assoc]
          rfl
        · rw [h3, List.append_assoc]
          rfl

/-- Witness for `acp_transfer_build`: a single-cell collection yields an
output whose capacity grows by the requested delta. -/
theorem acp_transfer_build_witness :
    ∃ insR outsR datasR,
      ([] : List CellInput) ++ (⟨⟨[], 5⟩, 0⟩ : CellInput) :: insR = [⟨⟨[], 5⟩, 0⟩] ∧
      ([] : List CellOutput)
        ++ (⟨61 + 9, ⟨[], 0, [3]⟩, none⟩ : CellOutput) :: outsR
        = [⟨70, ⟨[], 0, [3]⟩, none⟩] ∧
      ([] : List Bytes) ++ ([8] : Bytes) :: datasR = [[8]] := by
  obtain ⟨insR, outsR, datasR, h1, h2, h3⟩ :=
    (acp_transfer_build
      (fun (s : Unit) _ => (([⟨⟨[], 5⟩, ⟨61, ⟨[], 0, [3]⟩, none⟩, [8], 0, 0⟩], 61), s))
      (fun _ => some ⟨0⟩) ⟨[⟨⟨[], 0, [3]⟩, 9⟩]⟩ ()
      ⟨⟨[], 0, [3]⟩, 9⟩ [] () [] [] [] []).2.2
      ⟨⟨[], 5⟩, ⟨61, ⟨[], 0, [3]⟩, none⟩, [8], 0, 0⟩ [] 61 () rfl
      ⟨[⟨0⟩], [⟨⟨[], 5⟩, 0⟩], [⟨70, ⟨[], 0, [3]⟩, none⟩], [[8]], []⟩ ()
      (by rfl)
  exact ⟨insR, outsR, datasR, by simpa using h1, by simpa using h2,
    by simpa using h3⟩

/-- C10: `Secp256k1SighashUnlocker` and `Secp256k1MultisigUnlocker` keep the
trait's default `is_unlocked`, so both always report `Ok(false)`, and the
`unlock_tx` step (modelled from the spec) therefore always takes their
signing path. -/
theorem secp256k1_unlockers_never_unlocked (signerMatch : Bytes → Bool)
    (signTx : Tx → ScriptGroup → Except UnlockError Tx)
    (tx : Tx) (g : ScriptGroup) (dep : TxDepProvider) :
    (secp256k1SighashUnlocker signerMatch signTx).isUnlocked tx g dep
      = .ok false ∧
    (secp256k1MultisigUnlocker signerMatch signTx).isUnlocked tx g dep
      = .ok false ∧
    unlockTxStep (secp256k1SighashUnlocker signerMatch signTx) tx g dep
      = (signTx tx g).map (fun tx' => (false, tx')) ∧
    unlockTxStep (secp256k1MultisigUnlocker signerMatch signTx) tx g dep
      = (signTx tx g).map (fun tx' => (false, tx')) := by
  refine ⟨rfl, rfl, ?_, ?_⟩ <;>
  · unfold unlockTxStep
    cases h : signTx tx g <;>
      simp [secp256k1SighashUnlocker, secp256k1MultisigUnlocker,
        ScriptUnlockerImpl.isUnlocked, scriptUnlockerDefaultIsUnlocked,
        Except.map, h]

end CkbSdk
